import Mathlib

/-!
Verification development for the release orchestration of
`.github/workflows/build-deploy.yaml` (nearblocks).

The workflow's deploy job is embedded shallowly:

* the `needs.build.outputs.matrix-result` expression is modelled from the
  `build` job's (absent) `outputs:` declaration;
* the `jq -r ".[\"$service\"]"` lookup is modelled by a small JSON parser
  and the jq index/raw-output semantics (empty stdin produces no output);
* each `run:` step is modelled as a pure function from an external `World`
  (the jq lookup results and the success of each kubectl call) to the trace
  of kubectl calls it issues, the `failed_deployments` list and its exit
  code, under GitHub's default `bash -e` shell (an unguarded failing
  command aborts the script);
* the job driver models GitHub step conditions: a step with no `if:` runs
  only while no earlier step has failed (`success()`), and the two rollback
  steps carry `if: failure()`.
-/

/-! ## JSON values and a parser (the stdin side of `jq`) -/

/-- JSON values, as read by `jq` from its standard input. -/
inductive Json where
  | null
  | bool (b : Bool)
  | num (digits : String)
  | str (s : String)
  | arr (elems : List Json)
  | obj (fields : List (String × Json))

/-- Left-brace character, written by code point. -/
def lbraceChar : Char := Char.ofNat 123

/-- Right-brace character, written by code point. -/
def rbraceChar : Char := Char.ofNat 125

/-- JSON insignificant whitespace. -/
def isJsonWs (c : Char) : Bool :=
  c == ' ' || c == '\n' || c == '\t' || c == '\r'

/-- Drop leading whitespace. -/
def skipWs : List Char → List Char
  | [] => []
  | c :: cs => if isJsonWs c then skipWs cs else c :: cs

/-- Characters that may occur in a (leniently parsed) JSON number. -/
def isNumChar (c : Char) : Bool :=
  c.isDigit || c == '-' || c == '+' || c == '.' || c == 'e' || c == 'E'

/-- Take the longest run of number characters. -/
def takeNum : List Char → List Char × List Char
  | [] => ([], [])
  | c :: cs =>
    if isNumChar c then
      ((takeNum cs).1.cons c, (takeNum cs).2)
    else ([], c :: cs)

/-- Parse the body of a JSON string literal after the opening quote,
returning the decoded characters and the input after the closing quote.
Unsupported escapes are a parse error. -/
def parseStrBody : Nat → List Char → Option (List Char × List Char)
  | 0, _ => none
  | _ + 1, [] => none
  | fuel + 1, c :: cs =>
    if c == '\"' then some ([], cs)
    else if c == '\\' then
      match cs with
      | [] => none
      | e :: cs2 =>
        let decoded : Option Char :=
          if e == '\"' then some '\"'
          else if e == '\\' then some '\\'
          else if e == '/' then some '/'
          else if e == 'n' then some '\n'
          else if e == 't' then some '\t'
          else if e == 'r' then some '\r'
          else none
        match decoded with
        | none => none
        | some ch => (parseStrBody fuel cs2).map (fun p => (ch :: p.1, p.2))
    else (parseStrBody fuel cs).map (fun p => (c :: p.1, p.2))

mutual

/-- Parse one JSON value (fuelled recursive-descent). -/
def parseVal : Nat → List Char → Option (Json × List Char)
  | 0, _ => none
  | fuel + 1, input =>
    match skipWs input with
    | [] => none
    | c :: cs =>
      if c == 'n' then
        match cs with
        | 'u' :: 'l' :: 'l' :: rest => some (Json.null, rest)
        | _ => none
      else if c == 't' then
        match cs with
        | 'r' :: 'u' :: 'e' :: rest => some (Json.bool true, rest)
        | _ => none
      else if c == 'f' then
        match cs with
        | 'a' :: 'l' :: 's' :: 'e' :: rest => some (Json.bool false, rest)
        | _ => none
      else if c == '\"' then
        (parseStrBody fuel cs).map (fun p => (Json.str ⟨p.1⟩, p.2))
      else if c == '[' then
        match skipWs cs with
        | ']' :: rest => some (Json.arr [], rest)
        | _ => (parseArrTail fuel cs).map (fun p => (Json.arr p.1, p.2))
      else if c == lbraceChar then
        match skipWs cs with
        | d :: rest =>
          if d == rbraceChar then some (Json.obj [], rest)
          else (parseObjTail fuel cs).map (fun p => (Json.obj p.1, p.2))
        | [] => none
      else if isNumChar c then
        some (Json.num ⟨(takeNum (c :: cs)).1⟩, (takeNum (c :: cs)).2)
      else none

/-- Parse the elements of an array after the opening bracket. -/
def parseArrTail : Nat → List Char → Option (List Json × List Char)
  | 0, _ => none
  | fuel + 1, input =>
    match parseVal fuel input with
    | none => none
    | some (v, rest) =>
      match skipWs rest with
      | ',' :: r2 => (parseArrTail fuel r2).map (fun p => (v :: p.1, p.2))
      | ']' :: r2 => some ([v], r2)
      | _ => none

/-- Parse the fields of an object after the opening brace. -/
def parseObjTail : Nat → List Char → Option (List (String × Json) × List Char)
  | 0, _ => none
  | fuel + 1, input =>
    match skipWs input with
    | '\"' :: cs =>
      match parseStrBody fuel cs with
      | none => none
      | some (k, rest) =>
        match skipWs rest with
        | ':' :: r2 =>
          match parseVal fuel r2 with
          | none => none
          | some (v, r3) =>
            match skipWs r3 with
            | ',' :: r4 => (parseObjTail fuel r4).map (fun p => ((⟨k⟩, v) :: p.1, p.2))
            | d :: r4 =>
              if d == rbraceChar then some ([(⟨k⟩, v)], r4) else none
            | [] => none
        | _ => none
    | _ => none

end

/-- Parse the whole stdin as a single JSON value. `none` both for empty /
whitespace-only input (jq reads zero values and produces no output) and for
malformed input (jq reports an error and produces no output on stdout). -/
def parseTopLevel (s : String) : Option Json :=
  match skipWs s.data with
  | [] => none
  | cs =>
    match parseVal (cs.length * 2 + 4) cs with
    | some (v, rest) => if skipWs rest = [] then some v else none
    | none => none

/-- jq indexing `.["key"]`: object lookup (missing key gives `null`),
indexing `null` gives `null`, indexing any other value is a jq error. -/
def jqIndex : Json → String → Option Json
  | Json.obj fs, k => some (((fs.find? (fun p => p.1 == k)).map Prod.snd).getD Json.null)
  | Json.null, _ => some Json.null
  | _, _ => none

/-- Escape a character for JSON string output. -/
def escChar (c : Char) : String :=
  if c == '\"' then "\\\"" else if c == '\\' then "\\\\" else String.singleton c

/-- Escape a string for JSON string output. -/
def escape (s : String) : String := String.join (s.data.map escChar)

mutual

/-- Compact JSON rendering (what `jq` prints for non-string values). -/
def renderJson : Json → String
  | Json.null => "null"
  | Json.bool true => "true"
  | Json.bool false => "false"
  | Json.num d => d
  | Json.str s => "\"" ++ escape s ++ "\""
  | Json.arr xs => "[" ++ renderList xs ++ "]"
  | Json.obj fs => "\x7b" ++ renderFields fs ++ "\x7d"

/-- Render array elements, comma separated. -/
def renderList : List Json → String
  | [] => ""
  | [x] => renderJson x
  | x :: xs => renderJson x ++ "," ++ renderList xs

/-- Render object fields, comma separated. -/
def renderFields : List (String × Json) → String
  | [] => ""
  | [(k, v)] => "\"" ++ escape k ++ "\":" ++ renderJson v
  | (k, v) :: fs => "\"" ++ escape k ++ "\":" ++ renderJson v ++ "," ++ renderFields fs

end

/-- Output (stdout) of `jq -r ".[\"key\"]"` on the given stdin, as captured
by a shell command substitution (so without the trailing newline). Empty
stdin, a parse error or a jq runtime error all produce empty output. -/
def jqFieldRaw (stdin key : String) : String :=
  match parseTopLevel stdin with
  | none => ""
  | some v =>
    match jqIndex v key with
    | none => ""
    | some (Json.str s) => s
    | some r => renderJson r

/-! ## The `matrix-result` job output (workflow wiring)

The `build` job of `.github/workflows/build-deploy.yaml` declares no
`outputs:` block at all; its "Set image output" step only appends a
`service=sha` line to a `services.json` file which is uploaded as an
artifact (and, although downloaded by the deploy job, never read again).
A GitHub expression referencing an undeclared job output evaluates to the
empty string. -/

/-- Declared job outputs of the `build` job: there are none. -/
def buildJobDeclaredOutputs : List (String × String) := []

/-- Value of a `needs.build.outputs.<name>` expression: the declared output
if present, otherwise the empty string. -/
def lookupJobOutput (name : String) : String :=
  (((buildJobDeclaredOutputs.find? (fun p => p.1 == name)).map Prod.snd)).getD ""

/-- Value of `needs.build.outputs.matrix-result` in the deploy job. -/
def matrixResultExpr : String := lookupJobOutput "matrix-result"

/-- `echo 'x'` feeds `x` plus a newline into the pipe. -/
def echoLine (s : String) : String := s ++ "\n"

/-- Line written to `services.json` by the build job's "Set image output"
step (`echo "service=sha" >> services.json`): not JSON. -/
def servicesJsonLine (service sha : String) : String := service ++ "=" ++ sha

/-- The per-service value actually obtained in the deploy job by
`service_sha=$(echo '${{ needs.build.outputs.matrix-result }}' | jq -r ".[\"$service\"]")`. -/
def actualShaOf (service : String) : String :=
  jqFieldRaw (echoLine matrixResultExpr) service

/-! ## The deploy job: steps, kubectl calls, shell semantics -/

/-- The `[[ -n "$service" && -n "$service_sha" && "$service_sha" != "false"
&& "$service_sha" != "null" ]]` guard of the two deploy steps. -/
def isValidSha (service sha : String) : Bool :=
  service != "" && sha != "" && sha != "false" && sha != "null"

/-- The `[[ "$service_sha" != "false" && "$service_sha" != "null" ]]` guard
of the two rollback steps (note: no `-n` emptiness test). -/
def rollbackValid (sha : String) : Bool :=
  sha != "false" && sha != "null"

/-- Testnet namespace (`kubectl config set-context --current --namespace=…`). -/
def testnetNamespace : String := "nearblocks-testnet"

/-- Mainnet namespace. -/
def mainnetNamespace : String := "nearblocks"

/-- Services deployed (and rolled back) on testnet. -/
def testnetServices : List String :=
  ["api", "app", "backend", "indexer-balance", "indexer-base",
   "indexer-events", "explorer-selector", "aggregates"]

/-- Services deployed (and rolled back) on mainnet. -/
def mainnetServices : List String :=
  ["api", "app", "backend", "indexer-balance", "indexer-base",
   "indexer-events", "indexer-dex", "indexer-multichain",
   "explorer-selector", "aggregates"]

/-- `deployment_name="$envPre-$service"`. -/
def deploymentName (pre service : String) : String := pre ++ "-" ++ service

/-- `image_name="ghcr.io/nearblocks/$service:$service_sha"`. -/
def imageName (service sha : String) : String :=
  "ghcr.io/nearblocks/" ++ service ++ ":" ++ sha

/-- Observable kubectl calls issued by the deploy job's steps. -/
inductive Call where
  | setContext (ns : String)
  | setImage (deployment service image : String)
  | waitRollout (deployment : String) (timeoutSecs : Nat)
  | undoRollout (deployment : String)
deriving DecidableEq

/-- External behaviour: the jq lookup results and the outcome of each
kubectl call (the cluster is an external collaborator). `setupOk` stands
for the checkout / artifact-download / kubectl-setup / kubeconfig steps
that precede the deploy steps. -/
structure World where
  shaOf : String → String
  setContextOk : String → Bool
  setImageOk : String → Bool
  rolloutConverges : String → Bool
  undoOk : String → Bool
  setupOk : Bool

/-- Result of one `run:` step: kubectl calls issued, final contents of the
`failed_deployments` array, and the script's exit code. -/
structure StepResult where
  calls : List Call
  failed : List String
  exitCode : Nat
deriving DecidableEq

/-- Intermediate state of the deploy loop: calls issued, the
`failed_deployments` array, and whether `bash -e` aborted the script
because an unguarded `kubectl set image` failed. -/
structure LoopOut where
  calls : List Call
  failed : List String
  aborted : Bool
deriving DecidableEq

/-- The `for service in "${services[@]}"` loop of the deploy steps
(lines 101–120 and 154–175 of the workflow). `kubectl set image` is
unguarded, so under `bash -e` its failure aborts the script;
`kubectl rollout status` appears in an `if !` condition, so its failure
only appends to `failed_deployments`. -/
def deployLoop (pre : String) (w : World) : List String → LoopOut
  | [] => ⟨[], [], false⟩
  | s :: rest =>
    if isValidSha s (w.shaOf s) then
      if w.setImageOk (deploymentName pre s) then
        if w.rolloutConverges (deploymentName pre s) then
          ⟨Call.setImage (deploymentName pre s) s (imageName s (w.shaOf s)) ::
             Call.waitRollout (deploymentName pre s) 600 :: (deployLoop pre w rest).calls,
           (deployLoop pre w rest).failed,
           (deployLoop pre w rest).aborted⟩
        else
          ⟨Call.setImage (deploymentName pre s) s (imageName s (w.shaOf s)) ::
             Call.waitRollout (deploymentName pre s) 600 :: (deployLoop pre w rest).calls,
           deploymentName pre s :: (deployLoop pre w rest).failed,
           (deployLoop pre w rest).aborted⟩
      else
        ⟨[Call.setImage (deploymentName pre s) s (imageName s (w.shaOf s))], [], true⟩
    else deployLoop pre w rest

/-- A whole "Deploy and verify …" step: `kubectl config set-context` (also
unguarded), then the loop, then `exit 1` if `failed_deployments` is
non-empty. -/
def deployEnvironment (ns pre : String) (services : List String) (w : World) : StepResult :=
  if w.setContextOk ns then
    ⟨Call.setContext ns :: (deployLoop pre w services).calls,
     (deployLoop pre w services).failed,
     if (deployLoop pre w services).aborted then 1
     else if (deployLoop pre w services).failed.isEmpty then 0 else 1⟩
  else ⟨[Call.setContext ns], [], 1⟩

/-- The `for service in "${services[@]}"` loop of the rollback steps
(lines 136–144 and 191–200). `kubectl rollout undo` is unguarded, so under
`bash -e` a failing undo aborts the rest of the loop. -/
def rollbackLoop (pre : String) (w : World) : List String → List Call × Nat
  | [] => ([], 0)
  | s :: rest =>
    if rollbackValid (w.shaOf s) then
      if w.undoOk (deploymentName pre s) then
        (Call.undoRollout (deploymentName pre s) :: (rollbackLoop pre w rest).1,
         (rollbackLoop pre w rest).2)
      else ([Call.undoRollout (deploymentName pre s)], 1)
    else rollbackLoop pre w rest

/-- A whole "Rollback failed … deployments" step. -/
def rollbackEnvironment (ns pre : String) (services : List String) (w : World) : StepResult :=
  if w.setContextOk ns then
    ⟨Call.setContext ns :: (rollbackLoop pre w services).1, [],
     (rollbackLoop pre w services).2⟩
  else ⟨[Call.setContext ns], [], 1⟩

/-- Which steps of the deploy job ran and with what result (`none` means
the step was skipped by its condition), plus the job's overall status. -/
structure JobResult where
  testnetDeploy : Option StepResult
  testnetRollback : Option StepResult
  mainnetDeploy : Option StepResult
  mainnetRollback : Option StepResult
  notified : Bool
  jobFailed : Bool
deriving DecidableEq

/-- The deploy job's step sequence under GitHub step conditions.

A step with no `if:` runs under `success()`: only while no earlier step of
the job has failed. The "Rollback failed testnet deployments", "Rollback
failed mainnet deployments" and "Notify on failure" steps carry
`if: failure()`: they run exactly when some earlier step has failed.
Consequently a testnet deploy failure skips "Deploy and verify mainnet"
(which has no `if:`) while still running both rollback steps, and a
rollback step's own exit code cannot un-fail the job. -/
def runDeployJob (w : World) : JobResult :=
  if w.setupOk then
    if (deployEnvironment testnetNamespace "testnet" testnetServices w).exitCode = 0 then
      if (deployEnvironment mainnetNamespace "mainnet" mainnetServices w).exitCode = 0 then
        ⟨some (deployEnvironment testnetNamespace "testnet" testnetServices w),
         none,
         some (deployEnvironment mainnetNamespace "mainnet" mainnetServices w),
         none, false, false⟩
      else
        ⟨some (deployEnvironment testnetNamespace "testnet" testnetServices w),
         none,
         some (deployEnvironment mainnetNamespace "mainnet" mainnetServices w),
         some (rollbackEnvironment mainnetNamespace "mainnet" mainnetServices w),
         true, true⟩
    else
      ⟨some (deployEnvironment testnetNamespace "testnet" testnetServices w),
       some (rollbackEnvironment testnetNamespace "testnet" testnetServices w),
       none,
       some (rollbackEnvironment mainnetNamespace "mainnet" mainnetServices w),
       true, true⟩
  else
    ⟨none,
     some (rollbackEnvironment testnetNamespace "testnet" testnetServices w),
     none,
     some (rollbackEnvironment mainnetNamespace "mainnet" mainnetServices w),
     true, true⟩

/-! ## Concrete worlds used by counterexamples and witnesses -/

/-- A world where every kubectl call succeeds and every service has the
given image sha. -/
def allOkWorld (sha : String) : World :=
  ⟨fun _ => sha, fun _ => true, fun _ => true, fun _ => true, fun _ => true, true⟩

/-- Every build sha valid, every rollout times out (no deployment
converges), everything else succeeds. -/
def timeoutWorld : World :=
  ⟨fun _ => "abc123", fun _ => true, fun _ => true, fun _ => false, fun _ => true, true⟩

/-- Every jq lookup yields the empty string, every kubectl call succeeds. -/
def emptyShaWorld : World :=
  ⟨fun _ => "", fun _ => true, fun _ => true, fun _ => true, fun _ => true, true⟩

/-- Every build sha valid, but `kubectl rollout undo` fails for
`testnet-api`; everything else succeeds. -/
def undoFailWorld : World :=
  ⟨fun _ => "abc123", fun _ => true, fun _ => true, fun _ => true,
   fun d => !(d == "testnet-api"), true⟩

/-- Every build sha valid, but `kubectl rollout undo` fails for
`testnet-app`; everything else succeeds. -/
def undoFailAppWorld : World :=
  ⟨fun _ => "abc123", fun _ => true, fun _ => true, fun _ => true,
   fun d => !(d == "testnet-app"), true⟩

/-- Every build sha valid, but `kubectl set image` fails for
`testnet-app`; everything else succeeds. -/
def setImageFailWorld : World :=
  ⟨fun _ => "abc123", fun _ => true, fun d => !(d == "testnet-app"),
   fun _ => true, fun _ => true, true⟩

/-- The scenario of the specification: `api` built as `sha1`, `app` marked
`false`, `backend` built as `sha2`, everything else absent; the rollout of
`testnet-backend` times out, all other kubectl calls succeed. -/
def mixedWorld : World :=
  ⟨fun s =>
      if s == "api" then "sha1"
      else if s == "app" then "false"
      else if s == "backend" then "sha2"
      else "",
   fun _ => true, fun _ => true, fun d => !(d == "testnet-backend"),
   fun _ => true, true⟩

/-- The world of an actual run of this workflow: the jq lookups read the
(undeclared, hence empty) `matrix-result` output. -/
def actualWorld : World :=
  ⟨actualShaOf, fun _ => true, fun _ => true, fun _ => true, fun _ => true, true⟩

/-- Per-service trace of one deploy-loop iteration when no `set image`
call fails: two calls for a valid service, none for a skipped one. -/
def callsFor (pre : String) (w : World) (t : String) : List Call :=
  if isValidSha t (w.shaOf t) then
    [Call.setImage (deploymentName pre t) t (imageName t (w.shaOf t)),
     Call.waitRollout (deploymentName pre t) 600]
  else []

example : jqFieldRaw "" "api" = "" := rfl
example : jqFieldRaw "\n" "api" = "" := rfl
example : actualShaOf "api" = "" := rfl
example : matrixResultExpr = "" := rfl
example : parseTopLevel (servicesJsonLine "api" "deadbeef") = none := rfl
example : jqFieldRaw "null" "api" = "null" := rfl
example : isValidSha "api" "" = false := rfl
example : rollbackValid "" = true := rfl

/-! ## Helper lemmas -/

/-- Strings with equal character data are equal. -/
lemma string_data_inj {a b : String} (h : a.data = b.data) : a = b := by
  cases a
  cases b
  exact congrArg String.mk (by simpa using h)

/-- `deploymentName pre` is injective in the service name. -/
lemma deploymentName_inj (pre : String) {a b : String}
    (h : deploymentName pre a = deploymentName pre b) : a = b := by
  unfold deploymentName at h
  have hd := congrArg String.data h
  rw [String.data_append, String.data_append] at hd
  exact string_data_inj (List.append_cancel_left hd)

/-- Splitting the deploy loop at a point that is reached (every valid
service before it has a succeeding `set image` call). -/
lemma deployLoop_split (pre : String) (w : World) (l₁ l₂ : List String)
    (h : ∀ t ∈ l₁, isValidSha t (w.shaOf t) = true →
      w.setImageOk (deploymentName pre t) = true) :
    deployLoop pre w (l₁ ++ l₂) =
      ⟨(l₁.map (callsFor pre w)).flatten ++ (deployLoop pre w l₂).calls,
       ((l₁.filter (fun t => isValidSha t (w.shaOf t) &&
           !w.rolloutConverges (deploymentName pre t))).map (deploymentName pre)) ++
         (deployLoop pre w l₂).failed,
       (deployLoop pre w l₂).aborted⟩ := by
  induction l₁ with
  | nil => simp
  | cons s l₁ ih =>
    have h' : ∀ t ∈ l₁, isValidSha t (w.shaOf t) = true →
        w.setImageOk (deploymentName pre t) = true :=
      fun t ht hv => h t (by simp [ht]) hv
    by_cases hv : isValidSha s (w.shaOf s)
    · have himg : w.setImageOk (deploymentName pre s) = true := h s (by simp) hv
      by_cases hc : w.rolloutConverges (deploymentName pre s)
      · simp [deployLoop, hv, himg, hc, ih h', callsFor]
      · simp [deployLoop, hv, himg, hc, ih h', callsFor]
    · simp [deployLoop, hv, ih h', callsFor]

/-- Splitting the rollback loop at a point that is reached (every
rollback-valid service before it has a succeeding undo call). -/
lemma rollbackLoop_split (pre : String) (w : World) (l₁ l₂ : List String)
    (h : ∀ t ∈ l₁, rollbackValid (w.shaOf t) = true →
      w.undoOk (deploymentName pre t) = true) :
    rollbackLoop pre w (l₁ ++ l₂) =
      ((l₁.filter (fun t => rollbackValid (w.shaOf t))).map
          (fun t => Call.undoRollout (deploymentName pre t)) ++
        (rollbackLoop pre w l₂).1,
       (rollbackLoop pre w l₂).2) := by
  induction l₁ with
  | nil => simp
  | cons s l₁ ih =>
    have h' : ∀ t ∈ l₁, rollbackValid (w.shaOf t) = true →
        w.undoOk (deploymentName pre t) = true :=
      fun t ht hv => h t (by simp [ht]) hv
    by_cases hv : rollbackValid (w.shaOf s)
    · have hu : w.undoOk (deploymentName pre s) = true := h s (by simp) hv
      simp [rollbackLoop, hv, hu, ih h']
    · simp [rollbackLoop, hv, ih h']

/-- With the actual (empty) build outputs, every loop iteration skips. -/
lemma deployLoop_all_skipped (pre : String) (w : World) (hsha : w.shaOf = actualShaOf) :
    ∀ ss : List String, deployLoop pre w ss = ⟨[], [], false⟩ := by
  intro ss
  induction ss with
  | nil => rfl
  | cons s rest ih =>
    have hv : isValidSha s (w.shaOf s) = false := by
      rw [hsha]
      have he : actualShaOf s = "" := rfl
      rw [he]
      simp [isValidSha]
    simp [deployLoop, hv, ih]

/-! ## C1 -/

/-- C1 counterexample: the claim says the production deploy phase runs
regardless of the staging outcome. In `timeoutWorld` every testnet rollout
times out, so the testnet deploy step exits non-zero; the mainnet deploy
step has no `if:` condition, hence runs under `success()` and is skipped —
it does not run. -/
theorem c1_counterexample :
    (runDeployJob timeoutWorld).testnetDeploy.isSome = true ∧
    (runDeployJob timeoutWorld).mainnetDeploy = none := by decide

/-- C1 amended: the production (mainnet) deploy step runs iff the setup
steps and the staging (testnet) deploy step all succeeded; a staging
failure (including one followed by a successful staging rollback) prevents
the production deploy step from running, because that step has no `if:`
condition and therefore runs only under `success()`. -/
theorem c1_amended (w : World) :
    (runDeployJob w).mainnetDeploy.isSome = true ↔
      (w.setupOk = true ∧
        (deployEnvironment testnetNamespace "testnet" testnetServices w).exitCode = 0) := by
  unfold runDeployJob
  cases hs : w.setupOk
  · simp
  · by_cases h1 :
      (deployEnvironment testnetNamespace "testnet" testnetServices w).exitCode = 0
    · by_cases h2 :
        (deployEnvironment mainnetNamespace "mainnet" mainnetServices w).exitCode = 0 <;>
        simp [h1, h2]
    · simp [h1]

/-! ## C2 -/

/-- C2: the `build` job declares no `matrix-result` output (it only writes
newline-separated `service=sha` lines to the `services.json` artifact,
which is not JSON and is never read after download), so the expression
`needs.build.outputs.matrix-result` is empty, the jq lookup yields the
empty string for every service, and both deploy steps skip every service:
their only kubectl call is the initial `set-context`, the failed set is
empty and they exit 0. -/
theorem c2_undeclared_output_skips_everything (w : World)
    (hsha : w.shaOf = actualShaOf)
    (hsetup : w.setupOk = true)
    (hctx1 : w.setContextOk testnetNamespace = true)
    (hctx2 : w.setContextOk mainnetNamespace = true) :
    matrixResultExpr = "" ∧
    (∀ service, actualShaOf service = "") ∧
    parseTopLevel (servicesJsonLine "api" "deadbeef") = none ∧
    (runDeployJob w).testnetDeploy = some ⟨[Call.setContext testnetNamespace], [], 0⟩ ∧
    (runDeployJob w).mainnetDeploy = some ⟨[Call.setContext mainnetNamespace], [], 0⟩ := by
  have hT := deployLoop_all_skipped "testnet" w hsha testnetServices
  have hM := deployLoop_all_skipped "mainnet" w hsha mainnetServices
  have dT : deployEnvironment testnetNamespace "testnet" testnetServices w =
      ⟨[Call.setContext testnetNamespace], [], 0⟩ := by
    simp [deployEnvironment, hctx1, hT]
  have dM : deployEnvironment mainnetNamespace "mainnet" mainnetServices w =
      ⟨[Call.setContext mainnetNamespace], [], 0⟩ := by
    simp [deployEnvironment, hctx2, hM]
  refine ⟨rfl, fun _ => rfl, rfl, ?_, ?_⟩ <;>
    simp [runDeployJob, hsetup, dT, dM]

/-- C2 witness: the hypotheses hold for the world of an actual run. -/
theorem c2_witness :
    actualWorld.shaOf = actualShaOf ∧
    (matrixResultExpr = "" ∧
      (∀ service, actualShaOf service = "") ∧
      parseTopLevel (servicesJsonLine "api" "deadbeef") = none ∧
      (runDeployJob actualWorld).testnetDeploy =
        some ⟨[Call.setContext testnetNamespace], [], 0⟩ ∧
      (runDeployJob actualWorld).mainnetDeploy =
        some ⟨[Call.setContext mainnetNamespace], [], 0⟩) :=
  ⟨rfl, c2_undeclared_output_skips_everything actualWorld rfl rfl rfl rfl⟩

/-! ## C3 -/

/-- C3 counterexample: the claim says a rollback step runs only when that
same environment's deploy phase reported failure, and never when it did
not run. In `timeoutWorld` the testnet deploy fails, the mainnet deploy
step is skipped (it never runs) — yet the mainnet rollback step, whose
condition is `if: failure()`, still runs. -/
theorem c3_counterexample :
    (runDeployJob timeoutWorld).mainnetDeploy = none ∧
    (runDeployJob timeoutWorld).mainnetRollback.isSome = true := by decide

/-- C3 amended: each rollback step runs iff some earlier step of the job
failed (`if: failure()`), not iff its own environment's deploy failed: the
testnet rollback runs iff setup failed or the testnet deploy failed, and
the mainnet rollback runs iff setup failed, the testnet deploy failed, or
the mainnet deploy failed — in particular a testnet deploy failure
triggers the mainnet rollback even though the mainnet deploy was skipped. -/
theorem c3_amended (w : World) :
    ((runDeployJob w).testnetRollback.isSome = true ↔
      (w.setupOk = false ∨
        (deployEnvironment testnetNamespace "testnet" testnetServices w).exitCode ≠ 0)) ∧
    ((runDeployJob w).mainnetRollback.isSome = true ↔
      (w.setupOk = false ∨
        (deployEnvironment testnetNamespace "testnet" testnetServices w).exitCode ≠ 0 ∨
        (deployEnvironment mainnetNamespace "mainnet" mainnetServices w).exitCode ≠ 0)) := by
  unfold runDeployJob
  cases hs : w.setupOk
  · simp
  · by_cases h1 :
      (deployEnvironment testnetNamespace "testnet" testnetServices w).exitCode = 0
    · by_cases h2 :
        (deployEnvironment mainnetNamespace "mainnet" mainnetServices w).exitCode = 0 <;>
        simp [h1, h2]
    · simp [h1]

/-! ## C4 -/

/-- C4 counterexample: the claim says the rollback steps apply the same
validity rule as the deploy steps. The rollback guard omits the `-n`
emptiness test: with every jq lookup empty (the actual situation), the
deploy step would skip `api`, yet the testnet rollback step issues
`kubectl rollout undo` for `testnet-api`. -/
theorem c4_counterexample :
    isValidSha "api" (emptyShaWorld.shaOf "api") = false ∧
    Call.undoRollout "testnet-api" ∈
      (rollbackEnvironment testnetNamespace "testnet" testnetServices emptyShaWorld).calls := by
  decide

/-- C4 amended: a rollback step issues an undo exactly for the services
whose entry is neither `"false"` nor `"null"` — a strictly weaker rule
than the deploy steps' (which additionally requires the entry to be
non-empty) — provided every undo call succeeds (a failing undo aborts the
remainder of the loop); in particular services with an empty entry are
rolled back even though the deploy phase skipped them. -/
theorem c4_amended (ns pre : String) (ss : List String) (w : World)
    (hctx : w.setContextOk ns = true)
    (hundo : ∀ d, w.undoOk d = true) :
    (rollbackEnvironment ns pre ss w).calls =
      Call.setContext ns ::
        (ss.filter (fun t => rollbackValid (w.shaOf t))).map
          (fun t => Call.undoRollout (deploymentName pre t)) := by
  have h := rollbackLoop_split pre w ss [] (fun t _ _ => hundo _)
  simp only [List.append_nil] at h
  simp [rollbackEnvironment, hctx, h, rollbackLoop]

/-- C4 witness: with every lookup empty, the testnet rollback undoes all
eight testnet services (none of which the deploy phase would touch). -/
theorem c4_amended_witness :
    (∀ d, emptyShaWorld.undoOk d = true) ∧
    (rollbackEnvironment testnetNamespace "testnet" testnetServices emptyShaWorld).calls =
      Call.setContext testnetNamespace ::
        (testnetServices.filter (fun t => rollbackValid (emptyShaWorld.shaOf t))).map
          (fun t => Call.undoRollout (deploymentName "testnet" t)) :=
  ⟨fun _ => rfl,
   c4_amended testnetNamespace "testnet" testnetServices emptyShaWorld rfl (fun _ => rfl)⟩

/-! ## C5 -/

/-- C5 counterexample: the claim says a failing undo does not prevent the
remaining undos. In `undoFailWorld` the undo of `testnet-api` (the first
service) fails; under `bash -e` the unguarded `kubectl rollout undo`
aborts the script, so `testnet-app` (valid, later in the list) is never
attempted and the step exits non-zero. -/
theorem c5_counterexample :
    rollbackValid (undoFailWorld.shaOf "app") = true ∧
    (rollbackEnvironment testnetNamespace "testnet" testnetServices undoFailWorld).calls =
      [Call.setContext testnetNamespace, Call.undoRollout "testnet-api"] ∧
    (rollbackEnvironment testnetNamespace "testnet" testnetServices undoFailWorld).exitCode = 1 ∧
    Call.undoRollout "testnet-app" ∉
      (rollbackEnvironment testnetNamespace "testnet" testnetServices undoFailWorld).calls := by
  decide

/-- C5 amended: each service's undo is attempted at most once (no retry),
but the rollback step is not best-effort: when the undo of service `s`
fails (all valid services before it having succeeded), the unguarded
`kubectl rollout undo` aborts the script under `bash -e`, so the step
exits non-zero, its trace ends at `s`, and no service after `s` gets an
undo call. -/
theorem c5_amended (ns pre : String) (l₁ l₂ : List String) (s : String) (w : World)
    (hnd : (l₁ ++ s :: l₂).Nodup)
    (hctx : w.setContextOk ns = true)
    (hreach : ∀ t ∈ l₁, rollbackValid (w.shaOf t) = true →
      w.undoOk (deploymentName pre t) = true)
    (hv : rollbackValid (w.shaOf s) = true)
    (hfail : w.undoOk (deploymentName pre s) = false) :
    (rollbackEnvironment ns pre (l₁ ++ s :: l₂) w).exitCode = 1 ∧
    (rollbackEnvironment ns pre (l₁ ++ s :: l₂) w).calls =
      Call.setContext ns ::
        ((l₁.filter (fun t => rollbackValid (w.shaOf t))).map
            (fun t => Call.undoRollout (deploymentName pre t)) ++
          [Call.undoRollout (deploymentName pre s)]) ∧
    (∀ t ∈ l₂, Call.undoRollout (deploymentName pre t) ∉
      (rollbackEnvironment ns pre (l₁ ++ s :: l₂) w).calls) ∧
    (∀ d, ((rollbackEnvironment ns pre (l₁ ++ s :: l₂) w).calls.count
      (Call.undoRollout d)) ≤ 1) := by
  obtain ⟨hn1, hn2, hdisj⟩ := List.nodup_append.mp hnd
  have hsl2 : s ∉ l₂ := (List.nodup_cons.mp hn2).1
  have hsp := rollbackLoop_split pre w l₁ (s :: l₂) hreach
  have htail : rollbackLoop pre w (s :: l₂) =
      ([Call.undoRollout (deploymentName pre s)], 1) := by
    simp [rollbackLoop, hv, hfail]
  rw [htail] at hsp
  have hcalls : (rollbackEnvironment ns pre (l₁ ++ s :: l₂) w).calls =
      Call.setContext ns ::
        ((l₁.filter (fun t => rollbackValid (w.shaOf t))).map
            (fun t => Call.undoRollout (deploymentName pre t)) ++
          [Call.undoRollout (deploymentName pre s)]) := by
    simp [rollbackEnvironment, hctx, hsp]
  have hexit : (rollbackEnvironment ns pre (l₁ ++ s :: l₂) w).exitCode = 1 := by
    simp [rollbackEnvironment, hctx, hsp]
  have hinj : Function.Injective (fun t => Call.undoRollout (deploymentName pre t)) := by
    intro a b hab
    simp only [Call.undoRollout.injEq] at hab
    exact deploymentName_inj pre hab
  refine ⟨hexit, hcalls, ?_, ?_⟩
  · intro t ht
    rw [hcalls]
    intro hmem
    have htl1 : t ∉ l₁ := fun h => hdisj h (by simp [ht])
    have hts : t ≠ s := fun h => hsl2 (h ▸ ht)
    simp only [List.mem_cons, List.mem_append, List.mem_map, List.mem_filter,
      List.mem_singleton] at hmem
    rcases hmem with h | h | h
    · exact Call.noConfusion h
    · obtain ⟨u, ⟨hu, _⟩, hueq⟩ := h
      have : u = t := deploymentName_inj pre (by simpa using hueq)
      exact htl1 (this ▸ hu)
    · exact hts (deploymentName_inj pre (by simpa using h))
  · intro d
    rw [hcalls]
    have hnodup : (Call.setContext ns ::
        ((l₁.filter (fun t => rollbackValid (w.shaOf t))).map
            (fun t => Call.undoRollout (deploymentName pre t)) ++
          [Call.undoRollout (deploymentName pre s)])).Nodup := by
      refine List.nodup_cons.mpr ⟨?_, ?_⟩
      · intro h
        simp only [List.mem_append, List.mem_map, List.mem_singleton] at h
        rcases h with ⟨u, _, hu⟩ | h
        · exact Call.noConfusion hu
        · exact Call.noConfusion h
      · refine List.Nodup.append ?_ (List.nodup_singleton _) ?_
        · exact ((hn1.filter _).map hinj)
        · intro x hx hx'
          simp only [List.mem_singleton] at hx'
          subst hx'
          simp only [List.mem_map, List.mem_filter] at hx
          obtain ⟨u, ⟨hu, _⟩, hueq⟩ := hx
          have : u = s := deploymentName_inj pre (by simpa using hueq)
          exact hdisj (this ▸ hu) (by simp)
    exact List.nodup_iff_count_le_one.mp hnodup _

/-- C5 witness: undo of `testnet-app` fails after `testnet-api` succeeded;
`testnet-backend` is never attempted. -/
theorem c5_amended_witness :
    (["api"] ++ "app" :: ["backend"]).Nodup ∧
    rollbackValid (undoFailAppWorld.shaOf "app") = true ∧
    ((rollbackEnvironment testnetNamespace "testnet" (["api"] ++ "app" :: ["backend"])
        undoFailAppWorld).exitCode = 1 ∧
      (rollbackEnvironment testnetNamespace "testnet" (["api"] ++ "app" :: ["backend"])
          undoFailAppWorld).calls =
        Call.setContext testnetNamespace ::
          (((["api"] : List String).filter
              (fun t => rollbackValid (undoFailAppWorld.shaOf t))).map
              (fun t => Call.undoRollout (deploymentName "testnet" t)) ++
            [Call.undoRollout (deploymentName "testnet" "app")]) ∧
      (∀ t ∈ (["backend"] : List String),
        Call.undoRollout (deploymentName "testnet" t) ∉
          (rollbackEnvironment testnetNamespace "testnet" (["api"] ++ "app" :: ["backend"])
            undoFailAppWorld).calls) ∧
      (∀ d, ((rollbackEnvironment testnetNamespace "testnet" (["api"] ++ "app" :: ["backend"])
        undoFailAppWorld).calls.count (Call.undoRollout d)) ≤ 1)) :=
  ⟨by decide, by decide,
   c5_amended testnetNamespace "testnet" ["api"] ["backend"] "app" undoFailAppWorld
     (by decide) rfl (by decide) (by decide) (by decide)⟩

/-! ## C6 -/

/-- Specific setImage/waitRollout calls of a service do not occur in the
iterations of other services. -/
lemma count_zero_of_not_mem (pre : String) (w : World) (t : String) :
    ∀ ss : List String, t ∉ ss →
      ((ss.map (callsFor pre w)).flatten.count
          (Call.setImage (deploymentName pre t) t (imageName t (w.shaOf t))) = 0) ∧
      ((ss.map (callsFor pre w)).flatten.count
          (Call.waitRollout (deploymentName pre t) 600) = 0) := by
  intro ss
  induction ss with
  | nil => simp
  | cons u ss ih =>
    intro h
    have hut : t ≠ u := fun h' => h (by simp [h'])
    have htss : t ∉ ss := fun h' => h (by simp [h'])
    have hdn : deploymentName pre t ≠ deploymentName pre u :=
      fun hh => hut (deploymentName_inj pre hh)
    obtain ⟨ih1, ih2⟩ := ih htss
    by_cases hvu : isValidSha u (w.shaOf u) <;>
      constructor <;>
      simp [callsFor, hvu, List.count_cons, List.count_append, ih1, ih2, hut, hdn]

/-- For a valid service of a duplicate-free list, the loop body contributes
exactly one setImage call and one waitRollout call for that service. -/
lemma count_one_of_mem (pre : String) (w : World) (t : String) :
    ∀ ss : List String, ss.Nodup → t ∈ ss → isValidSha t (w.shaOf t) = true →
      ((ss.map (callsFor pre w)).flatten.count
          (Call.setImage (deploymentName pre t) t (imageName t (w.shaOf t))) = 1) ∧
      ((ss.map (callsFor pre w)).flatten.count
          (Call.waitRollout (deploymentName pre t) 600) = 1) := by
  intro ss
  induction ss with
  | nil => intro _ ht; cases ht
  | cons u ss ih =>
    intro hnd ht hv
    obtain ⟨hu_notin, hnd'⟩ := List.nodup_cons.mp hnd
    rcases List.mem_cons.mp ht with rfl | hts
    · obtain ⟨z1, z2⟩ := count_zero_of_not_mem pre w t ss hu_notin
      constructor <;>
        simp [callsFor, hv, List.count_cons, List.count_append, z1, z2]
    · have hut : t ≠ u := fun h' => hu_notin (h' ▸ hts)
      have hdn : deploymentName pre t ≠ deploymentName pre u :=
        fun hh => hut (deploymentName_inj pre hh)
      obtain ⟨i1, i2⟩ := ih hnd' hts hv
      by_cases hvu : isValidSha u (w.shaOf u) <;>
        constructor <;>
        simp [callsFor, hvu, List.count_cons, List.count_append, i1, i2, hut, hdn]

/-- C6: with a valid `set image` call for every service (the spec's model,
where only the convergence wait can fail), a deploy step processes all
services: its failed set is exactly the valid services whose rollout did
not converge (so N timeouts give a failed set of size N), every valid
service still gets its update and wait calls, and the step succeeds iff
the failed set is empty. -/
theorem c6_failure_isolation (ns pre : String) (ss : List String) (w : World)
    (hctx : w.setContextOk ns = true)
    (himg : ∀ d, w.setImageOk d = true) :
    (deployEnvironment ns pre ss w).failed =
      (ss.filter (fun t => isValidSha t (w.shaOf t) &&
          !w.rolloutConverges (deploymentName pre t))).map (deploymentName pre) ∧
    (deployEnvironment ns pre ss w).failed.length =
      (ss.filter (fun t => isValidSha t (w.shaOf t) &&
          !w.rolloutConverges (deploymentName pre t))).length ∧
    (∀ t ∈ ss, isValidSha t (w.shaOf t) = true →
      Call.setImage (deploymentName pre t) t (imageName t (w.shaOf t)) ∈
        (deployEnvironment ns pre ss w).calls ∧
      Call.waitRollout (deploymentName pre t) 600 ∈
        (deployEnvironment ns pre ss w).calls) ∧
    ((deployEnvironment ns pre ss w).exitCode = 0 ↔
      (deployEnvironment ns pre ss w).failed = []) := by
  have hsp := deployLoop_split pre w ss [] (fun t _ _ => himg _)
  simp only [List.append_nil] at hsp
  have hnil : deployLoop pre w [] = ⟨[], [], false⟩ := rfl
  rw [hnil] at hsp
  simp only [List.append_nil] at hsp
  have hcalls : (deployEnvironment ns pre ss w).calls =
      Call.setContext ns :: (ss.map (callsFor pre w)).flatten := by
    simp [deployEnvironment, hctx, hsp]
  have hfailed : (deployEnvironment ns pre ss w).failed =
      (ss.filter (fun t => isValidSha t (w.shaOf t) &&
          !w.rolloutConverges (deploymentName pre t))).map (deploymentName pre) := by
    simp [deployEnvironment, hctx, hsp]
  have hexit : (deployEnvironment ns pre ss w).exitCode =
      if ((ss.filter (fun t => isValidSha t (w.shaOf t) &&
          !w.rolloutConverges (deploymentName pre t))).map (deploymentName pre)).isEmpty
      then 0 else 1 := by
    simp [deployEnvironment, hctx, hsp]
  refine ⟨hfailed, by rw [hfailed, List.length_map], ?_, ?_⟩
  · intro t ht hv
    rw [hcalls]
    constructor <;>
      exact List.mem_cons_of_mem _
        (List.mem_flatten.mpr ⟨callsFor pre w t, List.mem_map_of_mem _ ht,
          by simp [callsFor, hv]⟩)
  · rw [hexit, hfailed]
    by_cases he : ((ss.filter (fun t => isValidSha t (w.shaOf t) &&
        !w.rolloutConverges (deploymentName pre t))).map (deploymentName pre)) = [] <;>
      simp [he]

/-- C6 witness: in `timeoutWorld` every rollout times out, all eight
testnet services are still attempted and all eight end up failed. -/
theorem c6_witness :
    (∀ d, timeoutWorld.setImageOk d = true) ∧
    ((deployEnvironment testnetNamespace "testnet" testnetServices timeoutWorld).failed =
      (testnetServices.filter (fun t => isValidSha t (timeoutWorld.shaOf t) &&
          !timeoutWorld.rolloutConverges (deploymentName "testnet" t))).map
        (deploymentName "testnet") ∧
    (deployEnvironment testnetNamespace "testnet" testnetServices timeoutWorld).failed.length =
      (testnetServices.filter (fun t => isValidSha t (timeoutWorld.shaOf t) &&
          !timeoutWorld.rolloutConverges (deploymentName "testnet" t))).length ∧
    (∀ t ∈ testnetServices, isValidSha t (timeoutWorld.shaOf t) = true →
      Call.setImage (deploymentName "testnet" t) t (imageName t (timeoutWorld.shaOf t)) ∈
        (deployEnvironment testnetNamespace "testnet" testnetServices timeoutWorld).calls ∧
      Call.waitRollout (deploymentName "testnet" t) 600 ∈
        (deployEnvironment testnetNamespace "testnet" testnetServices timeoutWorld).calls) ∧
    ((deployEnvironment testnetNamespace "testnet" testnetServices timeoutWorld).exitCode = 0 ↔
      (deployEnvironment testnetNamespace "testnet" testnetServices timeoutWorld).failed = [])) :=
  ⟨fun _ => rfl,
   c6_failure_isolation testnetNamespace "testnet" testnetServices timeoutWorld rfl
     (fun _ => rfl)⟩

/-! ## C7 -/

/-- C7: with every `set image` call succeeding (the spec's model of the
cluster API), every valid service of a duplicate-free service list gets
exactly one update call and exactly one wait call (with the 600-second
timeout), whatever the rollout outcomes of the other services are. -/
theorem c7_one_update_one_wait (ns pre : String) (ss : List String) (w : World) (t : String)
    (hnd : ss.Nodup)
    (hctx : w.setContextOk ns = true)
    (himg : ∀ d, w.setImageOk d = true)
    (ht : t ∈ ss)
    (hv : isValidSha t (w.shaOf t) = true) :
    ((deployEnvironment ns pre ss w).calls.count
        (Call.setImage (deploymentName pre t) t (imageName t (w.shaOf t))) = 1) ∧
    ((deployEnvironment ns pre ss w).calls.count
        (Call.waitRollout (deploymentName pre t) 600) = 1) := by
  have hsp := deployLoop_split pre w ss [] (fun t _ _ => himg _)
  simp only [List.append_nil] at hsp
  have hnil : deployLoop pre w [] = ⟨[], [], false⟩ := rfl
  rw [hnil] at hsp
  simp only [List.append_nil] at hsp
  have hcalls : (deployEnvironment ns pre ss w).calls =
      Call.setContext ns :: (ss.map (callsFor pre w)).flatten := by
    simp [deployEnvironment, hctx, hsp]
  obtain ⟨h1, h2⟩ := count_one_of_mem pre w t ss hnd ht hv
  rw [hcalls]
  constructor <;> simp [List.count_cons, h1, h2]

/-- C7 witness: `api` in `timeoutWorld` (all rollouts time out — the other
services' outcomes are all failures) still gets exactly one update and one
wait call. -/
theorem c7_witness :
    testnetServices.Nodup ∧
    isValidSha "api" (timeoutWorld.shaOf "api") = true ∧
    (((deployEnvironment testnetNamespace "testnet" testnetServices timeoutWorld).calls.count
        (Call.setImage (deploymentName "testnet" "api") "api"
          (imageName "api" (timeoutWorld.shaOf "api")))) = 1 ∧
      ((deployEnvironment testnetNamespace "testnet" testnetServices timeoutWorld).calls.count
        (Call.waitRollout (deploymentName "testnet" "api") 600)) = 1) :=
  ⟨by decide, by decide,
   c7_one_update_one_wait testnetNamespace "testnet" testnetServices timeoutWorld "api"
     (by decide) rfl (fun _ => rfl) (by decide) (by decide)⟩

/-! ## C8 -/

/-- Every kubectl call in the deploy loop's trace belongs to some valid
service of the list. -/
lemma deployLoop_calls_shape (pre : String) (w : World) :
    ∀ ss : List String, ∀ c ∈ (deployLoop pre w ss).calls,
      ∃ u ∈ ss, isValidSha u (w.shaOf u) = true ∧
        (c = Call.setImage (deploymentName pre u) u (imageName u (w.shaOf u)) ∨
         c = Call.waitRollout (deploymentName pre u) 600) := by
  intro ss
  induction ss with
  | nil => intro c hc; simp [deployLoop] at hc
  | cons u ss ih =>
    intro c hc
    by_cases hvu : isValidSha u (w.shaOf u)
    · by_cases hio : w.setImageOk (deploymentName pre u)
      · have hcalls : (deployLoop pre w (u :: ss)).calls =
            Call.setImage (deploymentName pre u) u (imageName u (w.shaOf u)) ::
              Call.waitRollout (deploymentName pre u) 600 ::
                (deployLoop pre w ss).calls := by
          by_cases hcv : w.rolloutConverges (deploymentName pre u) <;>
            simp [deployLoop, hvu, hio, hcv]
        rw [hcalls] at hc
        rcases List.mem_cons.mp hc with rfl | hc
        · exact ⟨u, by simp, hvu, Or.inl rfl⟩
        rcases List.mem_cons.mp hc with rfl | hc
        · exact ⟨u, by simp, hvu, Or.inr rfl⟩
        · obtain ⟨v, hv1, hv2, hv3⟩ := ih c hc
          exact ⟨v, by simp [hv1], hv2, hv3⟩
      · simp only [deployLoop, hvu, if_true, hio, if_false, Bool.false_eq_true,
          List.mem_singleton] at hc
        exact ⟨u, by simp, hvu, Or.inl (by simpa using hc)⟩
    · simp only [deployLoop, hvu, Bool.false_eq_true, if_false] at hc
      obtain ⟨v, hv1, hv2, hv3⟩ := ih c hc
      exact ⟨v, by simp [hv1], hv2, hv3⟩

/-- Every entry of the deploy loop's failed set is the deployment name of
some valid service of the list. -/
lemma deployLoop_failed_shape (pre : String) (w : World) :
    ∀ ss : List String, ∀ x ∈ (deployLoop pre w ss).failed,
      ∃ u ∈ ss, isValidSha u (w.shaOf u) = true ∧ x = deploymentName pre u := by
  intro ss
  induction ss with
  | nil => intro x hx; simp [deployLoop] at hx
  | cons u ss ih =>
    intro x hx
    by_cases hvu : isValidSha u (w.shaOf u)
    · by_cases hio : w.setImageOk (deploymentName pre u)
      · by_cases hcv : w.rolloutConverges (deploymentName pre u)
        · simp only [deployLoop, hvu, hio, hcv, if_true] at hx
          obtain ⟨v, hv1, hv2, hv3⟩ := ih x hx
          exact ⟨v, by simp [hv1], hv2, hv3⟩
        · simp only [deployLoop, hvu, hio, hcv, if_true, Bool.false_eq_true, if_false,
            List.mem_cons] at hx
          rcases hx with rfl | hx
          · exact ⟨u, by simp, hvu, rfl⟩
          · obtain ⟨v, hv1, hv2, hv3⟩ := ih x hx
            exact ⟨v, by simp [hv1], hv2, hv3⟩
      · simp only [deployLoop, hvu, if_true, hio, Bool.false_eq_true, if_false,
          List.not_mem_nil] at hx
    · simp only [deployLoop, hvu, Bool.false_eq_true, if_false] at hx
      obtain ⟨v, hv1, hv2, hv3⟩ := ih x hx
      exact ⟨v, by simp [hv1], hv2, hv3⟩

/-- A service with a missing or sentinel build entry generates no kubectl
call and no failed entry anywhere in the deploy loop. -/
lemma deployLoop_no_calls_for_invalid (pre : String) (w : World) (t : String)
    (hinv : isValidSha t (w.shaOf t) = false) (ss : List String) :
    (∀ d img, Call.setImage d t img ∉ (deployLoop pre w ss).calls) ∧
    (Call.waitRollout (deploymentName pre t) 600 ∉ (deployLoop pre w ss).calls) ∧
    (deploymentName pre t ∉ (deployLoop pre w ss).failed) := by
  have hvalid : ∀ u : String, isValidSha u (w.shaOf u) = true → u ≠ t := by
    intro u hu h
    rw [h, hinv] at hu
    cases hu
  refine ⟨fun d img hmem => ?_, fun hmem => ?_, fun hmem => ?_⟩
  · obtain ⟨u, _, hu2, hu3⟩ := deployLoop_calls_shape pre w ss _ hmem
    rcases hu3 with h | h
    · exact hvalid u hu2 (Call.setImage.inj h).2.1.symm
    · exact Call.noConfusion h
  · obtain ⟨u, _, hu2, hu3⟩ := deployLoop_calls_shape pre w ss _ hmem
    rcases hu3 with h | h
    · exact Call.noConfusion h
    · exact hvalid u hu2 (deploymentName_inj pre (Call.waitRollout.inj h).1).symm
  · obtain ⟨u, _, hu2, hu3⟩ := deployLoop_failed_shape pre w ss _ hmem
    exact hvalid u hu2 (deploymentName_inj pre hu3).symm

/-- C8: a service whose build entry is absent or a sentinel (empty,
`"false"` or `"null"`) gets no `set image` call and no wait call, is never
added to the failed set, and its loop iteration is a no-op (processing
continues with the next service unchanged). -/
theorem c8_skip_semantics (ns pre : String) (ss : List String) (w : World) (t : String)
    (_ht : t ∈ ss)
    (hinv : isValidSha t (w.shaOf t) = false) :
    (∀ d img, Call.setImage d t img ∉ (deployEnvironment ns pre ss w).calls) ∧
    (Call.waitRollout (deploymentName pre t) 600 ∉ (deployEnvironment ns pre ss w).calls) ∧
    (deploymentName pre t ∉ (deployEnvironment ns pre ss w).failed) ∧
    (∀ rest : List String, deployLoop pre w (t :: rest) = deployLoop pre w rest) := by
  obtain ⟨h1, h2, h3⟩ := deployLoop_no_calls_for_invalid pre w t hinv ss
  have hcase :
      ((deployEnvironment ns pre ss w).calls =
          Call.setContext ns :: (deployLoop pre w ss).calls ∧
        (deployEnvironment ns pre ss w).failed = (deployLoop pre w ss).failed) ∨
      ((deployEnvironment ns pre ss w).calls = [Call.setContext ns] ∧
        (deployEnvironment ns pre ss w).failed = []) := by
    unfold deployEnvironment
    by_cases hctx : w.setContextOk ns <;> simp [hctx]
  refine ⟨?_, ?_, ?_, fun rest => by simp [deployLoop, hinv]⟩
  · intro d img hmem
    rcases hcase with ⟨hc, _⟩ | ⟨hc, _⟩ <;> rw [hc] at hmem
    · rcases List.mem_cons.mp hmem with h | h
      · exact Call.noConfusion h
      · exact h1 d img h
    · simp at hmem
  · intro hmem
    rcases hcase with ⟨hc, _⟩ | ⟨hc, _⟩ <;> rw [hc] at hmem
    · rcases List.mem_cons.mp hmem with h | h
      · exact Call.noConfusion h
      · exact h2 h
    · simp at hmem
  · intro hmem
    rcases hcase with ⟨_, hf⟩ | ⟨_, hf⟩ <;> rw [hf] at hmem
    · exact h3 hmem
    · simp at hmem

/-- C8 witness: in the spec's own scenario `app` is marked `"false"`, so
the testnet deploy step issues no update and no wait for it and does not
fail it. -/
theorem c8_witness :
    "app" ∈ testnetServices ∧
    isValidSha "app" (mixedWorld.shaOf "app") = false ∧
    ((∀ d img, Call.setImage d "app" img ∉
        (deployEnvironment testnetNamespace "testnet" testnetServices mixedWorld).calls) ∧
      (Call.waitRollout (deploymentName "testnet" "app") 600 ∉
        (deployEnvironment testnetNamespace "testnet" testnetServices mixedWorld).calls) ∧
      (deploymentName "testnet" "app" ∉
        (deployEnvironment testnetNamespace "testnet" testnetServices mixedWorld).failed) ∧
      (∀ rest : List String,
        deployLoop "testnet" mixedWorld ("app" :: rest) = deployLoop "testnet" mixedWorld rest)) :=
  ⟨by decide, by decide,
   c8_skip_semantics testnetNamespace "testnet" testnetServices mixedWorld "app"
     (by decide) (by decide)⟩

/-! ## C9 -/

/-- When every `set image` call succeeds, the deploy loop never aborts. -/
lemma deployLoop_not_aborted (pre : String) (w : World)
    (himg : ∀ d, w.setImageOk d = true) :
    ∀ ss : List String, (deployLoop pre w ss).aborted = false := by
  intro ss
  induction ss with
  | nil => rfl
  | cons u ss ih =>
    by_cases hvu : isValidSha u (w.shaOf u)
    · by_cases hcv : w.rolloutConverges (deploymentName pre u) <;>
        simp [deployLoop, hvu, himg, hcv, ih]
    · simp [deployLoop, hvu, ih]

/-- When every `set image` call succeeds, a deploy step exits 0 iff its
failed set is empty. -/
lemma deployEnvironment_exit_zero (ns pre : String) (ss : List String) (w : World)
    (hctx : w.setContextOk ns = true)
    (himg : ∀ d, w.setImageOk d = true) :
    (deployEnvironment ns pre ss w).exitCode = 0 ↔
      (deployEnvironment ns pre ss w).failed = [] := by
  unfold deployEnvironment
  simp only [hctx, if_true]
  rw [deployLoop_not_aborted pre w himg ss]
  by_cases he : (deployLoop pre w ss).failed = [] <;> simp [he]

/-- C9: with the setup steps and every `set image` call succeeding (the
spec's model), the job succeeds iff both deploy steps ended with an empty
failed set; any non-empty failed set in either environment leaves the job
failed, whatever the rollback steps did. -/
theorem c9_overall_exit (w : World)
    (hsetup : w.setupOk = true)
    (hctx : ∀ ns, w.setContextOk ns = true)
    (himg : ∀ d, w.setImageOk d = true) :
    (runDeployJob w).jobFailed = false ↔
      ((deployEnvironment testnetNamespace "testnet" testnetServices w).failed = [] ∧
       (deployEnvironment mainnetNamespace "mainnet" mainnetServices w).failed = []) := by
  have e1 := deployEnvironment_exit_zero testnetNamespace "testnet" testnetServices w
    (hctx _) himg
  have e2 := deployEnvironment_exit_zero mainnetNamespace "mainnet" mainnetServices w
    (hctx _) himg
  rw [← e1, ← e2]
  unfold runDeployJob
  simp only [hsetup, if_true]
  by_cases h1 : (deployEnvironment testnetNamespace "testnet" testnetServices w).exitCode = 0
  · by_cases h2 :
      (deployEnvironment mainnetNamespace "mainnet" mainnetServices w).exitCode = 0 <;>
      simp [h1, h2]
  · simp [h1]

/-- C9 witness: when everything succeeds both failed sets are empty and
the job succeeds. -/
theorem c9_witness :
    (∀ d, (allOkWorld "abc123").setImageOk d = true) ∧
    ((runDeployJob (allOkWorld "abc123")).jobFailed = false ↔
      ((deployEnvironment testnetNamespace "testnet" testnetServices
          (allOkWorld "abc123")).failed = [] ∧
       (deployEnvironment mainnetNamespace "mainnet" mainnetServices
          (allOkWorld "abc123")).failed = [])) :=
  ⟨fun _ => rfl, c9_overall_exit (allOkWorld "abc123") rfl (fun _ => rfl) (fun _ => rfl)⟩

/-! ## C10 -/

/-- C10: the failure isolation of a deploy step covers only the guarded
convergence wait. The `kubectl set image` call is unguarded, so under
`bash -e` its failure for a valid service `s` aborts the step at once:
the step exits non-zero, its trace ends with the failing update call, and
every service after `s` gets no update, no wait and no failed entry. -/
theorem c10_unguarded_set_image (ns pre : String) (l₁ l₂ : List String) (s : String)
    (w : World)
    (hnd : (l₁ ++ s :: l₂).Nodup)
    (hctx : w.setContextOk ns = true)
    (hreach : ∀ t ∈ l₁, isValidSha t (w.shaOf t) = true →
      w.setImageOk (deploymentName pre t) = true)
    (hv : isValidSha s (w.shaOf s) = true)
    (hfail : w.setImageOk (deploymentName pre s) = false) :
    (deployEnvironment ns pre (l₁ ++ s :: l₂) w).exitCode = 1 ∧
    (deployEnvironment ns pre (l₁ ++ s :: l₂) w).calls =
      Call.setContext ns ::
        ((l₁.map (callsFor pre w)).flatten ++
          [Call.setImage (deploymentName pre s) s (imageName s (w.shaOf s))]) ∧
    (∀ t ∈ l₂,
      (∀ d img, Call.setImage d t img ∉
        (deployEnvironment ns pre (l₁ ++ s :: l₂) w).calls) ∧
      (Call.waitRollout (deploymentName pre t) 600 ∉
        (deployEnvironment ns pre (l₁ ++ s :: l₂) w).calls) ∧
      (deploymentName pre t ∉ (deployEnvironment ns pre (l₁ ++ s :: l₂) w).failed)) := by
  obtain ⟨hn1, hn2, hdisj⟩ := List.nodup_append.mp hnd
  have hsl2 : s ∉ l₂ := (List.nodup_cons.mp hn2).1
  have hsp := deployLoop_split pre w l₁ (s :: l₂) hreach
  have htail : deployLoop pre w (s :: l₂) =
      ⟨[Call.setImage (deploymentName pre s) s (imageName s (w.shaOf s))], [], true⟩ := by
    simp [deployLoop, hv, hfail]
  rw [htail] at hsp
  simp only [List.append_nil] at hsp
  have hcalls : (deployEnvironment ns pre (l₁ ++ s :: l₂) w).calls =
      Call.setContext ns ::
        ((l₁.map (callsFor pre w)).flatten ++
          [Call.setImage (deploymentName pre s) s (imageName s (w.shaOf s))]) := by
    simp [deployEnvironment, hctx, hsp]
  have hfailed : (deployEnvironment ns pre (l₁ ++ s :: l₂) w).failed =
      (l₁.filter (fun t => isValidSha t (w.shaOf t) &&
          !w.rolloutConverges (deploymentName pre t))).map (deploymentName pre) := by
    simp [deployEnvironment, hctx, hsp]
  have hexit : (deployEnvironment ns pre (l₁ ++ s :: l₂) w).exitCode = 1 := by
    simp [deployEnvironment, hctx, hsp]
  refine ⟨hexit, hcalls, ?_⟩
  intro t ht
  have htl1 : t ∉ l₁ := fun h => hdisj h (by simp [ht])
  have hts : t ≠ s := fun h => hsl2 (h ▸ ht)
  have hblock : ∀ c ∈ (l₁.map (callsFor pre w)).flatten,
      ∃ u ∈ l₁, isValidSha u (w.shaOf u) = true ∧
        (c = Call.setImage (deploymentName pre u) u (imageName u (w.shaOf u)) ∨
         c = Call.waitRollout (deploymentName pre u) 600) := by
    intro c hc
    obtain ⟨blk, hblk, hcblk⟩ := List.mem_flatten.mp hc
    obtain ⟨u, hu, rfl⟩ := List.mem_map.mp hblk
    by_cases hvu : isValidSha u (w.shaOf u)
    · simp only [callsFor, hvu, if_true] at hcblk
      rcases List.mem_cons.mp hcblk with rfl | hcblk
      · exact ⟨u, hu, hvu, Or.inl rfl⟩
      · rcases List.mem_singleton.mp hcblk with rfl
        exact ⟨u, hu, hvu, Or.inr rfl⟩
    · simp [callsFor, hvu] at hcblk
  refine ⟨fun d img hmem => ?_, fun hmem => ?_, fun hmem => ?_⟩
  · rw [hcalls] at hmem
    rcases List.mem_cons.mp hmem with h | h
    · exact Call.noConfusion h
    rcases List.mem_append.mp h with h | h
    · obtain ⟨u, hu, _, heq | heq⟩ := hblock _ h
      · exact htl1 (by rw [(Call.setImage.inj heq).2.1]; exact hu)
      · exact Call.noConfusion heq
    · exact hts (Call.setImage.inj (List.mem_singleton.mp h)).2.1
  · rw [hcalls] at hmem
    rcases List.mem_cons.mp hmem with h | h
    · exact Call.noConfusion h
    rcases List.mem_append.mp h with h | h
    · obtain ⟨u, hu, _, heq | heq⟩ := hblock _ h
      · exact Call.noConfusion heq
      · exact htl1 (by
          rw [deploymentName_inj pre (Call.waitRollout.inj heq).1]
          exact hu)
    · exact Call.noConfusion (List.mem_singleton.mp h)
  · rw [hfailed] at hmem
    obtain ⟨u, hu, hueq⟩ := List.mem_map.mp hmem
    have hu1 : u ∈ l₁ := (List.mem_filter.mp hu).1
    exact htl1 (by rw [← deploymentName_inj pre hueq]; exact hu1)

/-- C10 witness: in `setImageFailWorld` the update of `testnet-app` fails
after `testnet-api` was handled; `backend` and the later services get no
call at all. -/
theorem c10_witness :
    (["api"] ++ "app" :: ["backend", "indexer-balance", "indexer-base",
        "indexer-events", "explorer-selector", "aggregates"]).Nodup ∧
    isValidSha "app" (setImageFailWorld.shaOf "app") = true ∧
    setImageFailWorld.setImageOk (deploymentName "testnet" "app") = false ∧
    ((deployEnvironment testnetNamespace "testnet"
        (["api"] ++ "app" :: ["backend", "indexer-balance", "indexer-base",
          "indexer-events", "explorer-selector", "aggregates"]) setImageFailWorld).exitCode = 1 ∧
      (deployEnvironment testnetNamespace "testnet"
        (["api"] ++ "app" :: ["backend", "indexer-balance", "indexer-base",
          "indexer-events", "explorer-selector", "aggregates"]) setImageFailWorld).calls =
        Call.setContext testnetNamespace ::
          (((["api"] : List String).map (callsFor "testnet" setImageFailWorld)).flatten ++
            [Call.setImage (deploymentName "testnet" "app") "app"
              (imageName "app" (setImageFailWorld.shaOf "app"))]) ∧
      (∀ t ∈ (["backend", "indexer-balance", "indexer-base", "indexer-events",
          "explorer-selector", "aggregates"] : List String),
        (∀ d img, Call.setImage d t img ∉
          (deployEnvironment testnetNamespace "testnet"
            (["api"] ++ "app" :: ["backend", "indexer-balance", "indexer-base",
              "indexer-events", "explorer-selector", "aggregates"]) setImageFailWorld).calls) ∧
        (Call.waitRollout (deploymentName "testnet" t) 600 ∉
          (deployEnvironment testnetNamespace "testnet"
            (["api"] ++ "app" :: ["backend", "indexer-balance", "indexer-base",
              "indexer-events", "explorer-selector", "aggregates"]) setImageFailWorld).calls) ∧
        (deploymentName "testnet" t ∉
          (deployEnvironment testnetNamespace "testnet"
            (["api"] ++ "app" :: ["backend", "indexer-balance", "indexer-base",
              "indexer-events", "explorer-selector", "aggregates"]) setImageFailWorld).failed))) :=
  ⟨by decide, by decide, by decide,
   c10_unguarded_set_image testnetNamespace "testnet" ["api"]
     ["backend", "indexer-balance", "indexer-base", "indexer-events",
      "explorer-selector", "aggregates"] "app" setImageFailWorld
     (by decide) rfl (by decide) (by decide) (by decide)⟩
